import Mathlib

/-!
Shallow embedding of the campaign dispatch engine of the Email Outreach Pro
application (src/app.py, with src/add_tests.py using the same upsert
statement): the job store (Postgres table email_campaigns manipulated by the
Database class), the CampaignWorker background loop, and the paced wait.
Timestamps (NOW()) are modelled as natural numbers supplied by the caller;
the SERIAL id sequence is carried alongside the rows.
-/

/-- One row of the email_campaigns table (Database.init_tables). -/
structure Row where
  id : Nat
  serial_number : Int
  name : String
  email : String
  title : Option String
  company : Option String
  status : String
  sent : Bool
  error_message : Option String
  sent_at : Option Nat
  created_at : Nat
  updated_at : Nat
deriving DecidableEq

/-- A contact record as fed to the upsert statement
(Database.add_test_contacts and the src/add_tests.py loop). -/
structure Contact where
  serial_number : Int
  name : String
  email : String
  title : Option String
  company : Option String
deriving DecidableEq

/-- The email_campaigns table together with the SERIAL sequence for id. -/
structure DB where
  rows : List Row
  nextId : Nat
deriving DecidableEq

def emptyDB : DB := { rows := [], nextId := 1 }

/-- WHERE status = 'pending' AND sent = FALSE, in table order. -/
def pendingRows (db : DB) : List Row :=
  db.rows.filter fun r => r.status == "pending" && !r.sent

/-- The ordering key of Database.get_pending_emails: serial_number only. -/
def serialLE (a b : Row) : Prop := a.serial_number ≤ b.serial_number

instance : DecidableRel serialLE := fun a b =>
  inferInstanceAs (Decidable (a.serial_number ≤ b.serial_number))

/-- Database.get_pending_emails: SELECT * WHERE status = 'pending' AND
sent = FALSE ORDER BY serial_number ASC LIMIT limit.  The SQL constrains only
the serial_number order; rows that tie on serial_number may be returned in any
order, so the query is a relation: res is a truncation of some permutation of
the pending rows that is sorted by serial_number. -/
def get_pending_emails (db : DB) (limit : Nat) (res : List Row) : Prop :=
  ∃ sorted : List Row,
    sorted.Perm (pendingRows db) ∧ sorted.Sorted serialLE ∧ res = sorted.take limit

/-- The ordering key of Database.get_pending_emails_paginated:
serial_number ASC, id ASC. -/
def pageOrd (a b : Row) : Prop :=
  a.serial_number < b.serial_number ∨ (a.serial_number = b.serial_number ∧ a.id ≤ b.id)

instance : DecidableRel pageOrd := fun a b =>
  inferInstanceAs
    (Decidable (a.serial_number < b.serial_number ∨
      (a.serial_number = b.serial_number ∧ a.id ≤ b.id)))

instance : IsTotal Row pageOrd := by
  constructor
  intro a b
  rcases lt_trichotomy a.serial_number b.serial_number with h | h | h
  · exact Or.inl (Or.inl h)
  · rcases Nat.le_total a.id b.id with h2 | h2
    · exact Or.inl (Or.inr ⟨h, h2⟩)
    · exact Or.inr (Or.inr ⟨h.symm, h2⟩)
  · exact Or.inr (Or.inl h)

instance : IsTrans Row pageOrd := by
  constructor
  intro a b c hab hbc
  rcases hab with h1 | ⟨h1, h1'⟩
  · rcases hbc with h2 | ⟨h2, _⟩
    · exact Or.inl (h1.trans h2)
    · exact Or.inl (h2 ▸ h1)
  · rcases hbc with h2 | ⟨h2, h2'⟩
    · exact Or.inl (h1 ▸ h2)
    · exact Or.inr ⟨h1.trans h2, h1'.trans h2'⟩

/-- Database.get_pending_emails_paginated: SELECT * WHERE status = 'pending'
AND sent = FALSE ORDER BY serial_number ASC, id ASC LIMIT limit OFFSET offset.
Because id is the primary key, (serial_number, id) is a key of the table and
the SQL ordering is deterministic; a sort realises it. -/
def get_pending_emails_paginated (db : DB) (offset limit : Nat) : List Row :=
  ((List.insertionSort pageOrd (pendingRows db)).drop offset).take limit

/-- Database.update_email_status.  The branch for status 'sent' sets
sent = TRUE and sent_at = NOW() but leaves error_message alone; every other
status goes to the branch that writes error_message but leaves the sent flag
and sent_at alone.  Exactly the two UPDATE statements of the source. -/
def update_email_status (db : DB) (email_id : Nat) (status : String)
    (error_message : Option String) (now : Nat) : DB :=
  if status = "sent" then
    { db with rows := db.rows.map fun r =>
        if r.id = email_id then
          { r with status := status, sent := true, sent_at := some now, updated_at := now }
        else r }
  else
    { db with rows := db.rows.map fun r =>
        if r.id = email_id then
          { r with status := status, error_message := error_message, updated_at := now }
        else r }

/-- Database.reset_email_status: SET status = 'pending', sent = FALSE,
error_message = NULL, updated_at = NOW() WHERE id = email_id.
Note: the UPDATE does not touch sent_at. -/
def reset_email_status (db : DB) (email_id : Nat) (now : Nat) : DB :=
  { db with rows := db.rows.map fun r =>
      if r.id = email_id then
        { r with status := "pending", sent := false, error_message := none, updated_at := now }
      else r }

/-- Database.reset_all_failed: the same SET clause applied
WHERE status = 'failed'.  It also does not touch sent_at. -/
def reset_all_failed (db : DB) (now : Nat) : DB :=
  { db with rows := db.rows.map fun r =>
      if r.status = "failed" then
        { r with status := "pending", sent := false, error_message := none, updated_at := now }
      else r }

/-- The DO UPDATE SET arm of the upsert statement, applied to the row whose
email conflicts: reset status and sent, overwrite name/title/company, clear
error_message and sent_at.  The SET list names no other column, so
serial_number, created_at and updated_at keep their values. -/
def onConflictUpdate (c : Contact) (r : Row) : Row :=
  if r.email = c.email then
    { r with status := "pending", sent := false, name := c.name,
             title := c.title, company := c.company,
             error_message := none, sent_at := none }
  else r

/-- The INSERT ... ON CONFLICT (email) DO UPDATE statement used by
Database.add_test_contacts and src/add_tests.py.  When a row with the email
exists, the conflict arm updates it; otherwise a fresh row is inserted with
the defaults of the schema. -/
def upsert (db : DB) (c : Contact) (now : Nat) : DB :=
  if db.rows.any fun r => r.email = c.email then
    { db with rows := db.rows.map (onConflictUpdate c) }
  else
    { rows := db.rows ++
        [{ id := db.nextId, serial_number := c.serial_number, name := c.name,
           email := c.email, title := c.title, company := c.company,
           status := "pending", sent := false, error_message := none,
           sent_at := none, created_at := now, updated_at := now }],
      nextId := db.nextId + 1 }

/-- The record returned by Database.get_stats. -/
structure Stats where
  total : Nat
  sent : Nat
  pending : Nat
  failed : Nat
deriving DecidableEq

/-- Database.get_stats: four independent COUNT queries.  sent counts
sent = TRUE regardless of status; pending counts status = 'pending' AND
sent = FALSE; failed counts status = 'failed'. -/
def get_stats (db : DB) : Stats :=
  { total := db.rows.length
    sent := (db.rows.filter fun r => r.sent).length
    pending := (db.rows.filter fun r => r.status == "pending" && !r.sent).length
    failed := (db.rows.filter fun r => r.status == "failed").length }

/-- Database.execute_query: run the query; on a psycopg2 error drop the
connection, reconnect, and run it exactly once more, letting a second failure
propagate.  attempt n is the outcome of the n-th execution of the query. -/
def execute_query {α : Type} (attempt : Nat → Except String α) : Except String α :=
  match attempt 0 with
  | .ok v => .ok v
  | .error _ => attempt 1

/-- How many rows of db carry the given email. -/
def emailCount (db : DB) (e : String) : Nat :=
  (db.rows.filter fun r => r.email = e).length

/-- The mutable attributes of the CampaignWorker singleton. -/
structure WorkerState where
  is_running : Bool
  is_paused : Bool
  current_email : Option String
deriving DecidableEq

/-- The run mode displayed to the operator (app.py header and sidebar):
Stopped when is_running is false, else Paused or Running by is_paused. -/
inductive RunMode where
  | Stopped
  | Running
  | Paused
deriving DecidableEq

def runMode (w : WorkerState) : RunMode :=
  if w.is_running then (if w.is_paused then RunMode.Paused else RunMode.Running)
  else RunMode.Stopped

/-- CampaignWorker.pause: sets is_paused unconditionally. -/
def CampaignWorker.pause (w : WorkerState) : WorkerState :=
  { w with is_paused := true }

/-- CampaignWorker.resume: clears is_paused unconditionally. -/
def CampaignWorker.resume (w : WorkerState) : WorkerState :=
  { w with is_paused := false }

/-- CampaignWorker.stop: clears both flags and current_email. -/
def CampaignWorker.stop (w : WorkerState) : WorkerState :=
  { is_running := false, is_paused := false, current_email := w.current_email }

/-- CampaignWorker.start: when not already running, sets is_running and
clears is_paused (the thread spawn itself carries no further state). -/
def CampaignWorker.start (w : WorkerState) : WorkerState :=
  if w.is_running then w else { w with is_running := true, is_paused := false }

/-- The database together with the worker singleton. -/
structure SysState where
  db : DB
  w : WorkerState
deriving DecidableEq

/-- The body of one iteration of CampaignWorker.process_emails after the
run/pause checks, given the list fetched by get_pending_emails(limit=1).
An empty fetch stops the loop.  Otherwise the head row is processed: the
content generator (GeminiClient.generate_email, which catches its own errors
and never raises) produces a subject and body, the mail transport
(EmailSender.send_email) either succeeds or raises, and the outcome is
recorded with update_email_status - on failure str(e) is passed verbatim.
current_email is set to the row during processing and cleared at the end, so
its per-iteration net effect is none. -/
def loopBody (generate : Row → String × String)
    (send : String → String → String → Except String Unit)
    (now : Nat) (s : SysState) (fetched : List Row) : SysState :=
  match fetched with
  | [] =>
    { s with w := { s.w with is_running := false, current_email := none } }
  | r :: _ =>
    { db :=
        match send r.email (generate r).1 (generate r).2 with
        | .ok _ => update_email_status s.db r.id "sent" none now
        | .error msg => update_email_status s.db r.id "failed" (some msg) now,
      w := { s.w with current_email := none } }

/-- One iteration of the while loop of CampaignWorker.process_emails: exit if
is_running is false; sleep and continue if paused; otherwise run the body. -/
def loopIter (generate : Row → String × String)
    (send : String → String → String → Except String Unit)
    (now : Nat) (s : SysState) (fetched : List Row) : SysState :=
  if s.w.is_running = false then s
  else if s.w.is_paused then s
  else loopBody generate send now s fetched

/-- One iteration of the same loop when the store may fail: the whole body
sits in a try/except whose handler prints the error, sleeps 5 seconds and
falls through to the next iteration, leaving every flag untouched. -/
def loopIterTry (storeFails : Bool) (generate : Row → String × String)
    (send : String → String → String → Except String Unit)
    (now : Nat) (s : SysState) (fetched : List Row) : SysState :=
  if s.w.is_running = false then s
  else if s.w.is_paused then s
  else if storeFails then s
  else loopBody generate send now s fetched

/-- Config.MIN_DELAY default (environment variable unset): 600 seconds. -/
def MIN_DELAY : Nat := 600

/-- Config.MAX_DELAY default (environment variable unset): 1800 seconds. -/
def MAX_DELAY : Nat := 1800

/-- random.randint(lo, hi): a uniformly random integer with both endpoints
included, modelled as the draw of a source value r reduced onto the window;
for lo ≤ hi this is a bijection from [0, hi - lo + 1) onto [lo, hi], so a
uniform source gives a uniform result. -/
def randint (lo hi r : Nat) : Nat := lo + r % (hi - lo + 1)

/-- The wait of process_emails, started at check index i: for each of the
remaining ticks, first re-check the flags (interrupt i is true when
is_running is false or is_paused is set at the i-th check) and break, else
time.sleep(1).  Returns the number of one-second sleeps performed. -/
def waitLoopFrom (interrupt : Nat → Bool) (i : Nat) : Nat → Nat
  | 0 => 0
  | d + 1 => if interrupt i then 0 else 1 + waitLoopFrom interrupt (i + 1) d

/-- The full paced wait: delay iterations of check-then-sleep. -/
def waitLoop (interrupt : Nat → Bool) (delay : Nat) : Nat :=
  waitLoopFrom interrupt 0 delay

/-- The store operations reachable from the application code. -/
inductive StoreOp where
  | upsertOp (c : Contact)
  | updateStatus (email_id : Nat) (status : String) (msg : Option String)
  | resetOp (email_id : Nat)
  | resetAllFailedOp
deriving DecidableEq

def applyOp (db : DB) (op : StoreOp) (t : Nat) : DB :=
  match op with
  | .upsertOp c => upsert db c t
  | .updateStatus i s m => update_email_status db i s m t
  | .resetOp i => reset_email_status db i t
  | .resetAllFailedOp => reset_all_failed db t

def applyOps (db : DB) : List (StoreOp × Nat) → DB
  | [] => db
  | (op, t) :: rest => applyOps (applyOp db op t) rest

/-- The per-row status invariant of the specification. -/
def statusInv (r : Row) : Prop :=
  (r.status = "sent" → r.sent_at ≠ none ∧ r.error_message = none) ∧
  (r.status = "failed" → r.error_message ≠ none ∧ r.sent_at = none) ∧
  (r.status = "pending" → r.sent_at = none ∧ r.error_message = none)

instance (r : Row) : Decidable (statusInv r) := by
  unfold statusInv
  infer_instance

/-- The call discipline of the application: update_email_status is invoked
only for a row just fetched as pending, with status 'sent' and no message or
status 'failed' and the exception text; reset_email_status is invoked only
from the failed tab, on a failed row. -/
def disciplined (db : DB) (op : StoreOp) : Prop :=
  match op with
  | .updateStatus i s m =>
    (∀ r ∈ db.rows, r.id = i → r.status = "pending") ∧
    (s = "sent" ∧ m = none ∨ s = "failed" ∧ m ≠ none)
  | .resetOp i => ∀ r ∈ db.rows, r.id = i → r.status = "failed"
  | _ => True

instance (db : DB) (op : StoreOp) : Decidable (disciplined db op) := by
  unfold disciplined
  cases op <;> infer_instance

/-- A sequence of store operations each of which respects the call
discipline in the state it is applied to. -/
inductive DisciplinedSeq : DB → List (StoreOp × Nat) → Prop where
  | nil (db : DB) : DisciplinedSeq db []
  | cons {db : DB} {op : StoreOp} {t : Nat} {rest : List (StoreOp × Nat)}
      (h : disciplined db op) (hrest : DisciplinedSeq (applyOp db op t) rest) :
      DisciplinedSeq db ((op, t) :: rest)

/-- A single pending contact row, as produced by a fresh insert. -/
def r1 : Row :=
  ⟨1, 0, "A", "a@x", none, none, "pending", false, none, none, 0, 0⟩

/-- A store holding exactly one pending job. -/
def db1 : DB := { rows := [r1], nextId := 2 }

/-- A content generator collaborator with a fixed subject and body. -/
def generate0 : Row → String × String := fun _ => ("s", "b")

/-- A mail transport collaborator that always fails with reason boom. -/
def send0 : String → String → String → Except String Unit :=
  fun _ _ _ => Except.error "boom"

/-- A running worker over the one-pending-job store. -/
def sys1 : SysState :=
  { db := db1, w := { is_running := true, is_paused := false, current_email := none } }

/-- Two pending rows that tie on serial_number, ids 1 and 2. -/
def rowA : Row :=
  ⟨1, 5, "A", "a@t", none, none, "pending", false, none, none, 0, 0⟩

def rowB : Row :=
  ⟨2, 5, "B", "b@t", none, none, "pending", false, none, none, 0, 0⟩

def dbTie : DB := { rows := [rowA, rowB], nextId := 3 }

/-- Three pending rows inserted with serial_number 2, 0, 1 in that order. -/
def rowP : Row :=
  ⟨1, 2, "P", "p@t", none, none, "pending", false, none, none, 0, 0⟩

def rowQ : Row :=
  ⟨2, 0, "Q", "q@t", none, none, "pending", false, none, none, 0, 0⟩

def rowR : Row :=
  ⟨3, 1, "R", "r@t", none, none, "pending", false, none, none, 0, 0⟩

def db3 : DB := { rows := [rowP, rowQ, rowR], nextId := 4 }

/-- The store after each successive claim is recorded as sent. -/
def db3Q : DB := update_email_status db3 2 "sent" none 10

def db3QR : DB := update_email_status db3Q 3 "sent" none 11

def db3QRP : DB := update_email_status db3QR 1 "sent" none 12

/-- A contact used for operation-sequence scenarios. -/
def cSeq : Contact := { serial_number := 7, name := "N", email := "n@x", title := none, company := none }

/-- Upsert a contact, record it sent, then record it failed: the sequence
that leaves a failed row still carrying a sent_at timestamp. -/
def cexOps : List (StoreOp × Nat) :=
  [(StoreOp.upsertOp cSeq, 0), (StoreOp.updateStatus 1 "sent" none, 1),
   (StoreOp.updateStatus 1 "failed" (some "m"), 2)]

def cexDB : DB := applyOps emptyDB cexOps

/-- The single row of cexDB, computed by hand from the operations. -/
def cexRow : Row :=
  ⟨1, 7, "N", "n@x", none, none, "failed", true, some "m", some 1, 0, 2⟩

/-- A disciplined sequence: upsert, record failed, retry, record sent. -/
def okOps : List (StoreOp × Nat) :=
  [(StoreOp.upsertOp cSeq, 0), (StoreOp.updateStatus 1 "failed" (some "boom"), 1),
   (StoreOp.resetOp 1, 2), (StoreOp.updateStatus 1 "sent" none, 3)]

/-- The single row after okOps. -/
def okRow : Row :=
  ⟨1, 7, "N", "n@x", none, none, "sent", true, none, some 3, 0, 3⟩

/-- A contact for the reset scenario. -/
def cC4 : Contact := { serial_number := 9, name := "M", email := "m@x", title := none, company := none }

/-- A store whose single row is failed but still carries sent_at = 1. -/
def dbC4 : DB :=
  update_email_status (update_email_status (upsert emptyDB cC4 0) 1 "sent" none 1)
    1 "failed" (some "m") 2

def rowC4failed : Row :=
  ⟨1, 9, "M", "m@x", none, none, "failed", true, some "m", some 1, 0, 2⟩

/-- The row of dbC4 after reset_email_status at time 3. -/
def rowC4reset : Row :=
  ⟨1, 9, "M", "m@x", none, none, "pending", false, none, some 1, 0, 3⟩

/-- Two submissions of the same email with different names. -/
def cW : Contact := { serial_number := 0, name := "Alice", email := "x@y", title := none, company := none }

def cW2 : Contact := { serial_number := 0, name := "Bob", email := "x@y", title := none, company := none }

/-- The single row after upserting cW then cW2. -/
def rowW : Row :=
  ⟨1, 0, "Bob", "x@y", none, none, "pending", false, none, none, 0, 0⟩

/-- A stopped worker. -/
def wStopped : WorkerState := { is_running := false, is_paused := false, current_email := none }

/-- A running worker. -/
def wRun : WorkerState := { is_running := true, is_paused := false, current_email := none }

/-- A row with status failed and the sent flag TRUE at the same time. -/
def rowDouble : Row :=
  ⟨1, 0, "D", "d@x", none, none, "failed", true, some "m", none, 0, 0⟩

def dbC10 : DB := { rows := [rowDouble], nextId := 2 }

theorem perm_pair {α : Type} {l : List α} {a b : α} (h : l.Perm [a, b]) :
    l = [a, b] ∨ l = [b, a] := by
  have hlen : l.length = 2 := by simpa using h.length_eq
  obtain ⟨x, y, rfl⟩ := List.length_eq_two.mp hlen
  have hx : x ∈ [a, b] := h.mem_iff.mp (by simp)
  simp only [List.mem_cons, List.mem_singleton, List.not_mem_nil, or_false] at hx
  rcases hx with rfl | rfl
  · have h2 : [y].Perm [b] := h.cons_inv
    left
    rw [List.perm_singleton.mp h2]
  · have h3 : (x :: [y]).Perm (x :: [a]) := h.trans (List.Perm.swap x a [])
    right
    rw [List.perm_singleton.mp h3.cons_inv]

theorem perm_three {α : Type} {l : List α} {a b c : α} (h : l.Perm [a, b, c]) :
    l = [a, b, c] ∨ l = [a, c, b] ∨ l = [b, a, c] ∨ l = [b, c, a] ∨
    l = [c, a, b] ∨ l = [c, b, a] := by
  have hlen : l.length = 3 := by simpa using h.length_eq
  obtain ⟨x, y, z, rfl⟩ := List.length_eq_three.mp hlen
  have hx : x ∈ [a, b, c] := h.mem_iff.mp (by simp)
  simp only [List.mem_cons, List.mem_singleton, List.not_mem_nil, or_false] at hx
  rcases hx with rfl | rfl | rfl
  · have h2 : [y, z].Perm [b, c] := h.cons_inv
    rcases perm_pair h2 with h3 | h3
    · obtain ⟨rfl, rfl⟩ : y = b ∧ z = c := by simpa using h3
      exact Or.inl rfl
    · obtain ⟨rfl, rfl⟩ : y = c ∧ z = b := by simpa using h3
      exact Or.inr (Or.inl rfl)
  · have hswap : ([a, x, c]).Perm (x :: [a, c]) := List.Perm.swap x a [c]
    have h2 : [y, z].Perm [a, c] := (h.trans hswap).cons_inv
    rcases perm_pair h2 with h3 | h3
    · obtain ⟨rfl, rfl⟩ : y = a ∧ z = c := by simpa using h3
      exact Or.inr (Or.inr (Or.inl rfl))
    · obtain ⟨rfl, rfl⟩ : y = c ∧ z = a := by simpa using h3
      exact Or.inr (Or.inr (Or.inr (Or.inl rfl)))
  · have hswap1 : ([a, b, x]).Perm ([a, x, b]) := List.Perm.cons a (List.Perm.swap x b [])
    have hswap2 : ([a, x, b]).Perm (x :: [a, b]) := List.Perm.swap x a [b]
    have h2 : [y, z].Perm [a, b] := (h.trans (hswap1.trans hswap2)).cons_inv
    rcases perm_pair h2 with h3 | h3
    · obtain ⟨rfl, rfl⟩ : y = a ∧ z = b := by simpa using h3
      exact Or.inr (Or.inr (Or.inr (Or.inr (Or.inl rfl))))
    · obtain ⟨rfl, rfl⟩ : y = b ∧ z = a := by simpa using h3
      exact Or.inr (Or.inr (Or.inr (Or.inr (Or.inr rfl))))

/-- Any result of get_pending_emails is sorted by serial_number. -/
theorem get_pending_emails_sorted {db : DB} {limit : Nat} {res : List Row}
    (h : get_pending_emails db limit res) : res.Sorted serialLE := by
  obtain ⟨sorted, _, hsort, rfl⟩ := h
  exact List.Pairwise.sublist (List.take_sublist _ _) hsort

/-- The paginated query is sorted by (serial_number, id). -/
theorem get_pending_emails_paginated_sorted (db : DB) (offset limit : Nat) :
    (get_pending_emails_paginated db offset limit).Sorted pageOrd := by
  have h := List.sorted_insertionSort pageOrd (pendingRows db)
  exact List.Pairwise.sublist
    ((List.take_sublist _ _).trans (List.drop_sublist _ _)) h

/-- With a positive limit, the fetch is empty exactly when no pending row
exists. -/
theorem get_pending_emails_empty_iff {db : DB} {limit : Nat} {res : List Row}
    (h : get_pending_emails db limit res) (hpos : 0 < limit) :
    (res = [] ↔ pendingRows db = []) := by
  obtain ⟨sorted, hperm, _, rfl⟩ := h
  constructor
  · intro ht
    rcases List.take_eq_nil_iff.mp ht with h1 | h1
    · omega
    · subst h1
      exact List.perm_nil.mp hperm.symm
  · intro hp
    rw [hp] at hperm
    rw [List.perm_nil.mp hperm, List.take_nil]

theorem fetch_db3 {res : List Row} (h : get_pending_emails db3 1 res) :
    res = [rowQ] := by
  obtain ⟨sorted, hperm, hsort, rfl⟩ := h
  have hp : pendingRows db3 = [rowP, rowQ, rowR] := rfl
  rw [hp] at hperm
  rcases perm_three hperm with rfl | rfl | rfl | rfl | rfl | rfl <;>
    first
      | rfl
      | exact absurd hsort (by decide)

theorem fetch_db3Q {res : List Row} (h : get_pending_emails db3Q 1 res) :
    res = [rowR] := by
  obtain ⟨sorted, hperm, hsort, rfl⟩ := h
  have hp : pendingRows db3Q = [rowP, rowR] := rfl
  rw [hp] at hperm
  rcases perm_pair hperm with rfl | rfl <;>
    first
      | rfl
      | exact absurd hsort (by decide)

theorem fetch_db3QR {res : List Row} (h : get_pending_emails db3QR 1 res) :
    res = [rowP] := by
  obtain ⟨sorted, hperm, hsort, rfl⟩ := h
  have hp : pendingRows db3QR = [rowP] := rfl
  rw [hp] at hperm
  rw [List.perm_singleton.mp hperm]
  rfl

theorem fetch_db3QRP {res : List Row} (h : get_pending_emails db3QRP 1 res) :
    res = [] := by
  obtain ⟨sorted, hperm, hsort, rfl⟩ := h
  have hp : pendingRows db3QRP = [] := rfl
  rw [hp] at hperm
  rw [List.perm_nil.mp hperm, List.take_nil]

theorem onConflictUpdate_email (c : Contact) (r : Row) :
    (onConflictUpdate c r).email = r.email := by
  unfold onConflictUpdate
  split <;> rfl

theorem statusInv_pending_clean {r : Row} (hs : r.status = "pending")
    (h1 : r.sent_at = none) (h2 : r.error_message = none) : statusInv r := by
  refine ⟨fun h => ?_, fun h => ?_, fun _ => ⟨h1, h2⟩⟩
  · exact absurd (hs.symm.trans h) (by decide)
  · exact absurd (hs.symm.trans h) (by decide)

theorem statusInv_sent_clean {r : Row} (hs : r.status = "sent")
    (h1 : r.sent_at ≠ none) (h2 : r.error_message = none) : statusInv r := by
  refine ⟨fun _ => ⟨h1, h2⟩, fun h => ?_, fun h => ?_⟩
  · exact absurd (hs.symm.trans h) (by decide)
  · exact absurd (hs.symm.trans h) (by decide)

theorem statusInv_failed_clean {r : Row} (hs : r.status = "failed")
    (h1 : r.error_message ≠ none) (h2 : r.sent_at = none) : statusInv r := by
  refine ⟨fun h => ?_, fun _ => ⟨h1, h2⟩, fun h => ?_⟩
  · exact absurd (hs.symm.trans h) (by decide)
  · exact absurd (hs.symm.trans h) (by decide)

/-- Every row of an upsert result that carries the upserted email has been
reset to a clean pending row with the submitted display fields. -/
theorem upsert_mem {db : DB} {c : Contact} {t : Nat} :
    ∀ r ∈ (upsert db c t).rows, r.email = c.email →
      r.status = "pending" ∧ r.sent = false ∧ r.error_message = none ∧
      r.sent_at = none ∧ r.name = c.name ∧ r.title = c.title ∧
      r.company = c.company := by
  intro r hr he
  unfold upsert at hr
  split at hr
  · simp only [List.mem_map] at hr
    obtain ⟨y, hy, rfl⟩ := hr
    unfold onConflictUpdate at he ⊢
    by_cases hye : y.email = c.email
    · rw [if_pos hye]
      exact ⟨rfl, rfl, rfl, rfl, rfl, rfl, rfl⟩
    · rw [if_neg hye] at he
      exact absurd he hye
  · rename_i hany
    simp only [List.mem_append, List.mem_singleton] at hr
    rcases hr with h | h
    · exact absurd (List.any_eq_true.mpr ⟨r, h, by simpa using he⟩) hany
    · subst h
      exact ⟨rfl, rfl, rfl, rfl, rfl, rfl, rfl⟩

theorem filter_email_map_onConflict (c : Contact) (e : String) (l : List Row) :
    (List.filter (fun r => decide (r.email = e)) (l.map (onConflictUpdate c))).length
    = (List.filter (fun r => decide (r.email = e)) l).length := by
  induction l with
  | nil => rfl
  | cons a l ih =>
    simp only [List.map_cons, List.filter_cons, onConflictUpdate_email]
    split <;> simp [ih]

/-- The row count for the upserted email after an upsert: one if it was
absent, unchanged otherwise. -/
theorem upsert_emailCount (db : DB) (c : Contact) (t : Nat) :
    emailCount (upsert db c t) c.email = max 1 (emailCount db c.email) := by
  unfold upsert emailCount
  split
  · rename_i hany
    obtain ⟨x, hx, hxe⟩ := List.any_eq_true.mp hany
    have hmem : x ∈ List.filter (fun r => decide (r.email = c.email)) db.rows :=
      List.mem_filter.mpr ⟨hx, hxe⟩
    have hge : 1 ≤ (List.filter (fun r => decide (r.email = c.email)) db.rows).length :=
      List.length_pos.mpr (List.ne_nil_of_mem hmem)
    rw [filter_email_map_onConflict]
    omega
  · rename_i hany
    have hzero : (List.filter (fun r => decide (r.email = c.email)) db.rows).length = 0 := by
      rw [List.length_eq_zero, List.filter_eq_nil_iff]
      intro x hx hxe
      exact hany (List.any_eq_true.mpr ⟨x, hx, hxe⟩)
    rw [List.filter_append, List.length_append, hzero]
    simp

/-- One disciplined store operation preserves the per-row status invariant. -/
theorem applyOp_inv {db : DB} {op : StoreOp} {t : Nat}
    (hinv : ∀ r ∈ db.rows, statusInv r) (hd : disciplined db op) :
    ∀ r ∈ (applyOp db op t).rows, statusInv r := by
  intro r hr
  cases op with
  | upsertOp c =>
    simp only [applyOp] at hr
    unfold upsert at hr
    split at hr
    · simp only [List.mem_map] at hr
      obtain ⟨y, hy, rfl⟩ := hr
      unfold onConflictUpdate
      by_cases hye : y.email = c.email
      · rw [if_pos hye]
        exact statusInv_pending_clean rfl rfl rfl
      · rw [if_neg hye]
        exact hinv y hy
    · simp only [List.mem_append, List.mem_singleton] at hr
      rcases hr with h | h
      · exact hinv r h
      · subst h
        exact statusInv_pending_clean rfl rfl rfl
  | updateStatus i sArg m =>
    obtain ⟨htarget, hsm⟩ := hd
    simp only [applyOp] at hr
    unfold update_email_status at hr
    by_cases hs : sArg = "sent"
    · rw [if_pos hs] at hr
      simp only [List.mem_map] at hr
      obtain ⟨y, hy, rfl⟩ := hr
      by_cases hid : y.id = i
      · rw [if_pos hid]
        have hpend := htarget y hy hid
        have herr : y.error_message = none := ((hinv y hy).2.2 hpend).2
        exact statusInv_sent_clean hs (by simp) herr
      · rw [if_neg hid]
        exact hinv y hy
    · rw [if_neg hs] at hr
      rcases hsm with ⟨hs2, _⟩ | ⟨hs2, hm⟩
      · exact absurd hs2 hs
      · simp only [List.mem_map] at hr
        obtain ⟨y, hy, rfl⟩ := hr
        by_cases hid : y.id = i
        · rw [if_pos hid]
          have hpend := htarget y hy hid
          have hsa : y.sent_at = none := ((hinv y hy).2.2 hpend).1
          exact statusInv_failed_clean hs2 hm hsa
        · rw [if_neg hid]
          exact hinv y hy
  | resetOp i =>
    simp only [applyOp] at hr
    unfold reset_email_status at hr
    simp only [List.mem_map] at hr
    obtain ⟨y, hy, rfl⟩ := hr
    by_cases hid : y.id = i
    · rw [if_pos hid]
      have hfail := hd y hy hid
      have hsa : y.sent_at = none := ((hinv y hy).2.1 hfail).2
      exact statusInv_pending_clean rfl hsa rfl
    · rw [if_neg hid]
      exact hinv y hy
  | resetAllFailedOp =>
    simp only [applyOp] at hr
    unfold reset_all_failed at hr
    simp only [List.mem_map] at hr
    obtain ⟨y, hy, rfl⟩ := hr
    by_cases hys : y.status = "failed"
    · rw [if_pos hys]
      have hsa : y.sent_at = none := ((hinv y hy).2.1 hys).2
      exact statusInv_pending_clean rfl hsa rfl
    · rw [if_neg hys]
      exact hinv y hy

/-- C1: the claim asserts an atomic claim-and-transition, but
Database.get_pending_emails is a plain SELECT that transitions nothing: on a
store with exactly one pending job, every possible result of the query is
that very job, and the empty "none available" answer is impossible; the
store is left unchanged (the operation takes no write path at all), so a
second caller that runs before any outcome is recorded receives the same job
and both callers process it. -/
theorem C1_no_atomic_claim :
    (∀ res, get_pending_emails db1 1 res → res = [r1]) ∧
    ¬ get_pending_emails db1 1 [] ∧
    pendingRows db1 = [r1] := by
  have hforced : ∀ res, get_pending_emails db1 1 res → res = [r1] := by
    intro res h
    obtain ⟨sorted, hperm, _, rfl⟩ := h
    have hp : pendingRows db1 = [r1] := rfl
    rw [hp] at hperm
    rw [List.perm_singleton.mp hperm]
    rfl
  refine ⟨hforced, fun h => ?_, rfl⟩
  exact absurd (hforced [] h) (by decide)

/-- Witness for C1: the one-pending-job store really does yield the job to
any caller of the fetch. -/
theorem C1_no_atomic_claim_witness : [r1] = [r1] ∧ pendingRows db1 = [r1] := by
  have hp : pendingRows db1 = [r1] := rfl
  refine ⟨C1_no_atomic_claim.1 [r1] ⟨[r1], ?_, ?_, rfl⟩, C1_no_atomic_claim.2.2⟩
  · rw [hp]
  · exact List.sorted_singleton r1

/-- C2 counterexample: the worker's fetch orders by serial_number only, so
on two pending rows that tie on serial_number (ids 1 and 2) the query may
return the row with the larger id first; the claimed (sequencePriority, id)
order would force [rowA]. -/
theorem C2_counterexample :
    get_pending_emails dbTie 1 [rowB] ∧
    rowA.serial_number = rowB.serial_number ∧ rowA.id < rowB.id ∧
    rowA ∈ pendingRows dbTie ∧ [rowB] ≠ [rowA] := by
  have hp : pendingRows dbTie = [rowA, rowB] := rfl
  refine ⟨⟨[rowB, rowA], ?_, by decide, rfl⟩, rfl, by decide, by rw [hp]; simp, by decide⟩
  rw [hp]
  exact List.Perm.swap rowA rowB []

/-- C2 amended: any result of the worker's fetch (get_pending_emails) is
sorted by serial_number alone, ties in unspecified order; the paginated
query (get_pending_emails_paginated) is sorted by (serial_number, id); and
for three jobs inserted with serial_number 2, 0, 1 (all distinct), the
successive fetch-then-record-sent claims are forced to return them in
serial_number order 0, 1, 2 and then report none available. -/
theorem C2_claim_order :
    (∀ db limit res, get_pending_emails db limit res → res.Sorted serialLE) ∧
    (∀ db offset limit, (get_pending_emails_paginated db offset limit).Sorted pageOrd) ∧
    (∀ res, get_pending_emails db3 1 res → res = [rowQ]) ∧
    (∀ res, get_pending_emails db3Q 1 res → res = [rowR]) ∧
    (∀ res, get_pending_emails db3QR 1 res → res = [rowP]) ∧
    (∀ res, get_pending_emails db3QRP 1 res → res = []) ∧
    rowQ.serial_number = 0 ∧ rowR.serial_number = 1 ∧ rowP.serial_number = 2 :=
  ⟨fun _ _ _ h => get_pending_emails_sorted h,
   fun db offset limit => get_pending_emails_paginated_sorted db offset limit,
   fun _ h => fetch_db3 h, fun _ h => fetch_db3Q h,
   fun _ h => fetch_db3QR h, fun _ h => fetch_db3QRP h, rfl, rfl, rfl⟩

/-- Witness for the amended C2: a concrete first claim really returns the
serial_number 0 job, and the tie result of the counterexample store is
accepted by the sortedness clause. -/
theorem C2_claim_order_witness :
    [rowQ] = [rowQ] ∧ List.Sorted serialLE [rowB] := by
  have hp3 : pendingRows db3 = [rowP, rowQ, rowR] := rfl
  have hpt : pendingRows dbTie = [rowA, rowB] := rfl
  constructor
  · refine C2_claim_order.2.2.1 [rowQ] ⟨[rowQ, rowR, rowP], ?_, by decide, rfl⟩
    rw [hp3]
    decide
  · refine C2_claim_order.1 dbTie 1 [rowB] ⟨[rowB, rowA], ?_, by decide, rfl⟩
    rw [hpt]
    exact List.Perm.swap rowA rowB []

/-- C10: get_stats buckets do not partition the table: a row with
status failed and the sent flag TRUE is counted both in sent and in failed,
and on that store total (1) differs from sent + pending + failed (2). -/
theorem C10_stats_not_partition :
    get_stats dbC10 = { total := 1, sent := 1, pending := 0, failed := 1 } ∧
    (get_stats dbC10).total ≠
      (get_stats dbC10).sent + (get_stats dbC10).pending + (get_stats dbC10).failed ∧
    rowDouble ∈ dbC10.rows.filter (fun r => r.sent) ∧
    rowDouble ∈ dbC10.rows.filter (fun r => r.status == "failed") := by
  refine ⟨rfl, by decide, ?_, ?_⟩ <;> decide

/-- C3 counterexample: the sequence upsert, recordOutcome sent,
recordOutcome failed (all operations of the claim) leaves a row with status
failed that still carries sent_at = 1 (the sent branch never cleared and the
failed branch never clears sent_at), violating the claimed invariant. -/
theorem C3_counterexample :
    cexDB.rows = [cexRow] ∧ ¬ statusInv cexRow ∧
    cexRow.status = "failed" ∧ cexRow.sent_at = some 1 ∧ cexRow.sent = true := by
  exact ⟨rfl, by decide, rfl, rfl, rfl⟩

/-- C3 amended: the status invariant holds after every sequence of store
operations that follows the call pattern of the application itself:
update_email_status is invoked only on a row that is currently pending
(the worker and the manual send path both update the row they just fetched
as pending), with either status sent and no message or status failed and a
message, and reset_email_status is invoked only on a failed row (the retry
button of the failed tab); upsert and reset_all_failed are unrestricted. -/
theorem C3_invariant_disciplined {db : DB} {ops : List (StoreOp × Nat)}
    (hinv : ∀ r ∈ db.rows, statusInv r) (hd : DisciplinedSeq db ops) :
    ∀ r ∈ (applyOps db ops).rows, statusInv r := by
  induction hd with
  | nil db2 => exact hinv
  | cons h hrest ih => exact ih (applyOp_inv hinv h)

/-- Witness for the amended C3: a disciplined upsert, fail, retry, send
sequence from the empty store ends in a row satisfying the invariant. -/
theorem C3_invariant_disciplined_witness : statusInv okRow := by
  have hok := @C3_invariant_disciplined emptyDB okOps
    (fun r hr => absurd hr (List.not_mem_nil r))
    (DisciplinedSeq.cons (by decide)
      (DisciplinedSeq.cons (by decide)
        (DisciplinedSeq.cons (by decide)
          (DisciplinedSeq.cons (by decide) (DisciplinedSeq.nil _)))))
  exact hok okRow (by decide)

/-- C4: reset_email_status and reset_all_failed do clear error_message and
set status pending, but their UPDATE has no sent_at = NULL clause: on a
failed row that carries sent_at = 1 (reachable by upsert, record sent,
record failed), the reset leaves sent_at = 1 in place, against the claimed
atomic clearing of both fields.  The sibling script src/add_tests.py resets
its old contacts with an explicit sent_at = NULL, so the omission here
contradicts the intent visible in the repository itself. -/
theorem C4_reset_keeps_sent_at :
    dbC4.rows = [rowC4failed] ∧ rowC4failed.status = "failed" ∧
    (reset_email_status dbC4 1 3).rows = [rowC4reset] ∧
    (reset_all_failed dbC4 3).rows = [rowC4reset] ∧
    rowC4reset.status = "pending" ∧ rowC4reset.error_message = none ∧
    rowC4reset.sent_at = some 1 := by
  exact ⟨rfl, rfl, rfl, rfl, rfl, rfl, rfl⟩

/-- C5: the upsert is idempotent on the email key.  If the store satisfies
the uniqueness constraint for the email (at most one row), then after
submitting a contact twice (the second submission carrying the same email),
exactly one row holds that email, and it is a clean pending row whose
name/title/company are the values of the latest submission. -/
theorem C5_upsert_idempotent (db : DB) (c c2 : Contact) (t t2 : Nat)
    (he : c2.email = c.email) (hcount : emailCount db c.email ≤ 1) :
    emailCount (upsert (upsert db c t) c2 t2) c.email = 1 ∧
    ∀ r ∈ (upsert (upsert db c t) c2 t2).rows, r.email = c.email →
      r.status = "pending" ∧ r.sent = false ∧ r.error_message = none ∧
      r.sent_at = none ∧ r.name = c2.name ∧ r.title = c2.title ∧
      r.company = c2.company := by
  constructor
  · have h1 := upsert_emailCount db c t
    have h2 := upsert_emailCount (upsert db c t) c2 t2
    rw [he] at h2
    rw [h2, h1]
    omega
  · intro r hr hre
    exact upsert_mem r hr (he ▸ hre)

/-- Witness for C5: upserting Alice then Bob on the same email into the
empty store leaves one row, pending, named Bob. -/
theorem C5_upsert_idempotent_witness :
    emailCount (upsert (upsert emptyDB cW 0) cW2 1) "x@y" = 1 ∧
    rowW.status = "pending" ∧ rowW.name = "Bob" := by
  have h := C5_upsert_idempotent emptyDB cW cW2 0 1 rfl (by decide)
  exact ⟨h.1, (h.2 rowW (by decide) rfl).1, (h.2 rowW (by decide) rfl).2.2.2.2.1⟩

theorem waitLoopFrom_le_delay (interrupt : Nat → Bool) :
    ∀ (d i : Nat), waitLoopFrom interrupt i d ≤ d := by
  intro d
  induction d with
  | zero => intro i; exact Nat.le_refl 0
  | succ d ih =>
    intro i
    unfold waitLoopFrom
    by_cases hi : interrupt i
    · rw [if_pos hi]; exact Nat.zero_le _
    · rw [if_neg hi]
      have := ih (i + 1)
      omega

theorem waitLoopFrom_le_interrupt (interrupt : Nat → Bool) :
    ∀ (d i j : Nat), interrupt (i + j) = true → waitLoopFrom interrupt i d ≤ j := by
  intro d
  induction d with
  | zero => intro i j _; exact Nat.zero_le j
  | succ d ih =>
    intro i j h
    unfold waitLoopFrom
    by_cases hi : interrupt i
    · rw [if_pos hi]; exact Nat.zero_le j
    · rw [if_neg hi]
      cases j with
      | zero =>
        rw [Nat.add_zero] at h
        exact absurd h hi
      | succ j2 =>
        have hsh : interrupt (i + 1 + j2) = true := by
          have : i + 1 + j2 = i + (j2 + 1) := by omega
          rw [this]
          exact h
        have := ih (i + 1) j2 hsh
        omega

/-- C6: the inter-send delay is drawn by random.randint over the inclusive
window [minDelay, maxDelay] (the model lo + r mod (hi - lo + 1) is onto the
window, hitting each value for exactly one source value below the window
size, so a uniform source gives a uniform delay), the defaults are 600 and
1800 seconds, and the wait runs as one-second sub-waits that re-check the
stop and pause flags first: if the flags read interrupted at check k, at
most k one-second sleeps happen in total, and never more than the delay -
so a stop or pause issued during the wait takes effect within one tick. -/
theorem C6_pacing (lo hi r k delay : Nat) (interrupt : Nat → Bool)
    (hlohi : lo ≤ hi) (hk : interrupt k = true) :
    lo ≤ randint lo hi r ∧ randint lo hi r ≤ hi ∧
    (∀ v, lo ≤ v → v ≤ hi →
      ∃! r2, r2 < hi - lo + 1 ∧ randint lo hi r2 = v) ∧
    waitLoop interrupt delay ≤ k ∧ waitLoop interrupt delay ≤ delay ∧
    MIN_DELAY = 600 ∧ MAX_DELAY = 1800 := by
  have hmod : r % (hi - lo + 1) < hi - lo + 1 := Nat.mod_lt r (by omega)
  refine ⟨?_, ?_, ?_, ?_, ?_, rfl, rfl⟩
  · exact Nat.le_add_right lo _
  · unfold randint
    omega
  · intro v hv1 hv2
    refine ⟨v - lo, ⟨by omega, ?_⟩, ?_⟩
    · unfold randint
      rw [Nat.mod_eq_of_lt (by omega)]
      omega
    · intro r2 ⟨hr2, heq⟩
      unfold randint at heq
      rw [Nat.mod_eq_of_lt hr2] at heq
      omega
  · have h0 : interrupt (0 + k) = true := by rw [Nat.zero_add]; exact hk
    exact waitLoopFrom_le_interrupt interrupt delay 0 k h0
  · exact waitLoopFrom_le_delay interrupt delay 0

/-- Witness for C6 at the default window and a flag raised at check 3 of a
10 second wait. -/
theorem C6_pacing_witness :
    600 ≤ randint 600 1800 2500 ∧ randint 600 1800 2500 ≤ 1800 ∧
    waitLoop (fun n => decide (3 ≤ n)) 10 ≤ 3 ∧
    waitLoop (fun n => decide (3 ≤ n)) 10 ≤ 10 := by
  have h := C6_pacing 600 1800 2500 3 10 (fun n => decide (3 ≤ n))
    (by decide) (by decide)
  exact ⟨h.1, h.2.1, h.2.2.2.1, h.2.2.2.2.1⟩

/-- C7: for a running, unpaused worker whose fetch satisfies the
get_pending_emails relation, one loop iteration (a) self-terminates with
is_running false and no current job exactly when no pending row exists, (b)
keeps running when pending work exists, and (c) when the mail transport
(the EmailSender.send_email collaborator) fails with some reason, records
the claimed row as failed with that reason stored verbatim as
error_message, stays running, and the row is no longer pending, so the next
iteration claims the next job. -/
theorem C7_failure_no_termination (generate : Row → String × String)
    (send : String → String → String → Except String Unit)
    (now : Nat) (s : SysState) (fetched : List Row)
    (hrun : s.w.is_running = true) (hpause : s.w.is_paused = false)
    (hfetch : get_pending_emails s.db 1 fetched) :
    (pendingRows s.db = [] →
      (loopIter generate send now s fetched).w.is_running = false ∧
      (loopIter generate send now s fetched).w.current_email = none) ∧
    (pendingRows s.db ≠ [] →
      (loopIter generate send now s fetched).w.is_running = true) ∧
    (∀ r rest msg, fetched = r :: rest →
      send r.email (generate r).1 (generate r).2 = .error msg →
      (loopIter generate send now s fetched).w.is_running = true ∧
      ∀ x ∈ (loopIter generate send now s fetched).db.rows, x.id = r.id →
        x.status = "failed" ∧ x.error_message = some msg ∧
        x ∉ pendingRows (loopIter generate send now s fetched).db) := by
  have hred : loopIter generate send now s fetched = loopBody generate send now s fetched := by
    unfold loopIter
    rw [hrun, hpause]
    simp
  have hempty := get_pending_emails_empty_iff hfetch (by omega)
  refine ⟨?_, ?_, ?_⟩
  · intro hp
    rw [hred]
    have hf : fetched = [] := hempty.mpr hp
    subst hf
    exact ⟨rfl, rfl⟩
  · intro hp
    rw [hred]
    cases fetched with
    | nil => exact absurd (hempty.mp rfl) hp
    | cons r rest =>
      unfold loopBody
      exact hrun
  · intro r rest msg hf hsend
    subst hf
    rw [hred]
    simp only [loopBody, hsend]
    refine ⟨hrun, ?_⟩
    intro x hx hxid
    unfold update_email_status at hx
    rw [if_neg (by decide)] at hx
    simp only [List.mem_map] at hx
    obtain ⟨y, hy, rfl⟩ := hx
    by_cases hid : y.id = r.id
    · rw [if_pos hid]
      refine ⟨rfl, rfl, ?_⟩
      intro hmem
      have := (List.mem_filter.mp hmem).2
      simp at this
    · rw [if_neg hid] at hxid ⊢
      exact absurd hxid hid

/-- Witness for C7: with a transport that always fails with boom, the
iteration on the one-pending-job store stays running and leaves the job
failed with error boom, no longer pending. -/
theorem C7_failure_no_termination_witness :
    (loopIter generate0 send0 5 sys1 [r1]).w.is_running = true ∧
    (loopIter generate0 send0 5 sys1 [r1]).db.rows =
      [⟨1, 0, "A", "a@x", none, none, "failed", false, some "boom", none, 0, 5⟩] := by
  have hp : pendingRows sys1.db = [r1] := rfl
  have h := C7_failure_no_termination generate0 send0 5 sys1 [r1] rfl rfl
    ⟨[r1], by rw [hp], List.sorted_singleton r1, rfl⟩
  exact ⟨(h.2.2 r1 [] "boom" rfl rfl).1, rfl⟩

/-- C8 counterexample: a store failure that persists through the retry does
not stop the loop: the worker catches the exception, sleeps, and continues
with every flag unchanged, run mode still Running, against the claimed
transition to Stopped. -/
theorem C8_counterexample :
    loopIterTry true generate0 send0 0 sys1 [] = sys1 ∧
    runMode (loopIterTry true generate0 send0 0 sys1 []).w = RunMode.Running ∧
    runMode (loopIterTry true generate0 send0 0 sys1 []).w ≠ RunMode.Stopped := by
  exact ⟨rfl, rfl, by decide⟩

/-- C8 amended: Database.execute_query attempts exactly one reconnect and
retry (a first failure makes the result that of the second attempt, which
propagates if it also fails), but a store error reaching the dispatch loop
is swallowed by its catch-all handler: the iteration leaves the state
untouched, the worker keeps running and the run mode never becomes Stopped;
nothing is surfaced to the status output.  (The worker's own queries go
through the connection directly and do not even pass execute_query.) -/
theorem C8_store_error_swallowed {α : Type} (attempt : Nat → Except String α)
    (e : String) (generate : Row → String × String)
    (send : String → String → String → Except String Unit)
    (now : Nat) (s : SysState) (fetched : List Row)
    (h0 : attempt 0 = .error e) (hrun : s.w.is_running = true)
    (hpause : s.w.is_paused = false) :
    execute_query attempt = attempt 1 ∧
    loopIterTry true generate send now s fetched = s ∧
    (loopIterTry true generate send now s fetched).w.is_running = true ∧
    runMode (loopIterTry true generate send now s fetched).w ≠ RunMode.Stopped := by
  have hiter : loopIterTry true generate send now s fetched = s := by
    unfold loopIterTry
    rw [hrun, hpause]
    simp
  refine ⟨?_, hiter, ?_, ?_⟩
  · unfold execute_query
    rw [h0]
  · rw [hiter, hrun]
  · rw [hiter]
    unfold runMode
    rw [hrun, hpause]
    decide

/-- Witness for the amended C8: concrete persistent failure, running
worker. -/
theorem C8_store_error_swallowed_witness :
    execute_query (fun _ => (Except.error "down" : Except String Nat)) =
      (Except.error "down" : Except String Nat) ∧
    loopIterTry true generate0 send0 0 sys1 [] = sys1 := by
  have h := C8_store_error_swallowed (fun _ => (Except.error "down" : Except String Nat))
    "down" generate0 send0 0 sys1 [] rfl rfl rfl
  exact ⟨h.1, h.2.1⟩

/-- C9 counterexample: pause invoked on a stopped worker does change the
worker state: is_paused flips to true. -/
theorem C9_counterexample :
    CampaignWorker.pause wStopped ≠ wStopped ∧
    runMode wStopped = RunMode.Stopped ∧
    (CampaignWorker.pause wStopped).is_paused = true := by
  exact ⟨by decide, rfl, rfl⟩

/-- C9 amended: pause sets is_paused unconditionally; at the level of the
displayed run mode, pausing a Running worker yields Paused, pausing a
Stopped worker leaves the mode Stopped (only the internal flag changes,
and start clears it again), and the mode after pause is Paused exactly when
the worker was running. -/
theorem C9_pause_only_running (w : WorkerState) :
    (CampaignWorker.pause w).is_paused = true ∧
    (runMode w = RunMode.Running → runMode (CampaignWorker.pause w) = RunMode.Paused) ∧
    (runMode w = RunMode.Stopped → runMode (CampaignWorker.pause w) = RunMode.Stopped) ∧
    (runMode (CampaignWorker.pause w) = RunMode.Paused ↔ w.is_running = true) := by
  obtain ⟨ir, ip, ce⟩ := w
  cases ir <;> cases ip <;>
    simp [CampaignWorker.pause, runMode]

/-- Witness for the amended C9 at a running and at a stopped worker. -/
theorem C9_pause_only_running_witness :
    runMode (CampaignWorker.pause wRun) = RunMode.Paused ∧
    runMode (CampaignWorker.pause wStopped) = RunMode.Stopped :=
  ⟨(C9_pause_only_running wRun).2.1 rfl, (C9_pause_only_running wStopped).2.2.1 rfl⟩
